import Mathlib

/-!
Shallow embedding of the `banktest` payment engine (sources:
`src/currency.rs`, `src/client_info.rs`, `src/payment_engine.rs`,
`src/transaction.rs`) and verification of the specification claims.

Modelling conventions:
* `Currency` (a newtype over Rust `i64`) is embedded as unbounded `Int`;
  overflow is irrelevant to every property treated here, and the one place
  the `i64` range is observable (`i64::from_str` rejecting out-of-range
  digit strings) is modelled explicitly in `parseI64`.
* Rust `i64` division truncates toward zero, which is `Int.tdiv`;
  `%` applied to `i64::abs` is a remainder of non-negative operands, which is
  `Nat` `%` on `Int.natAbs`.
* Methods taking `&mut self` and returning `Result<(), TransactionError>` are
  embedded as state-passing functions returning
  `ClientInfo × Option TransactionError` (the returned state, and `some e`
  exactly when the Rust method returns `Err(e)`).
* Rust `for` loops over a vector returning on first match are embedded with
  `List.find?`, which returns the first element (in insertion order)
  satisfying the predicate.
-/

/-! ## Currency (`src/currency.rs`) -/

/-- Rust `type Currency = i64`: fixed point value scaled by 10000. -/
abbrev Currency := Int

/-- Rust `type TxId = u32` (ids are only generated, stored and compared). -/
abbrev TxId := Nat

/-- Decimal digits of `n`, most significant first, as in Rust `format!("{}", n)`
for a non-negative integer (`Nat.toDigits 10` produces exactly this). -/
def natRepr (n : Nat) : List Char := Nat.toDigits 10 n

/-- Rust `format!("{}", i)` for an `i64` value: optional minus sign followed by
the decimal digits of the absolute value. -/
def i64Chars (i : Int) : List Char :=
  if i < 0 then '-' :: natRepr i.natAbs else natRepr i.natAbs

/-- Rust `format!("{:0>4}", s)`: left-pad with zeros to a minimum width 4. -/
def padLeft4 (cs : List Char) : List Char :=
  List.replicate (4 - cs.length) '0' ++ cs

/-- Rust `format!("{:0<4}", s)`: right-pad with zeros to a minimum width 4. -/
def padRight4 (cs : List Char) : List Char :=
  cs ++ List.replicate (4 - cs.length) '0'

/-- The digit-string value read by Rust `i64::from_str` after the optional
sign: `none` unless the string is a non-empty run of ASCII digits. -/
def digitsVal : List Char → Option Nat
  | [] => none
  | cs =>
    if cs.all (fun c => c.isDigit) then
      some (cs.foldl (fun n c => 10 * n + (c.toNat - 48)) 0)
    else none

/-- Rust `i64::from_str`: optional `+`/`-` sign, a non-empty digit run, and a
range check against the `i64` bounds. -/
def parseI64 (cs : List Char) : Option Int :=
  let core : List Char → Bool → Option Int := fun ds neg =>
    match digitsVal ds with
    | none => none
    | some n =>
      let v : Int := if neg then -(n : Int) else (n : Int)
      if -(2 ^ 63) ≤ v ∧ v ≤ 2 ^ 63 - 1 then some v else none
  match cs with
  | '-' :: rest => core rest true
  | '+' :: rest => core rest false
  | _ => core cs false

/-- Rust `str::split('.')`: splitting the empty string yields one empty part,
and every `'.'` starts a new part. -/
def splitDot : List Char → List (List Char)
  | [] => [[]]
  | '.' :: rest => [] :: splitDot rest
  | c :: rest =>
    match splitDot rest with
    | [] => [[c]]
    | p :: ps => (c :: p) :: ps

/-- Embedding of `Currency::from_str` (src/currency.rs lines 27-44): split on `'.'`, parse
the first part as an `i64`, right-pad the second part (when present) to at
least four characters and parse it as an `i64`; parts after the second are
silently dropped by the two `splitted.next()` calls.  The fractional value is
negated when `first * 10000` is negative. -/
def Currency.fromStr (cs : List Char) : Option Currency :=
  match splitDot cs with
  | [] => none
  | [first] => (parseI64 first).map (fun n => n * 10000)
  | first :: second :: _ =>
    match parseI64 first, parseI64 (padRight4 second) with
    | some f, some sec =>
      let f := f * 10000
      let sec := if f < 0 then -sec else sec
      some (f + sec)
    | _, _ => none

/-- Embedding of `impl fmt::Display for Currency` (src/currency.rs lines 75-79):
`format!("{}.{:0>4}", self.0 / 10000, self.0.abs() % 10000)` with `i64`
division truncating toward zero. -/
def Currency.render (c : Currency) : List Char :=
  i64Chars (Int.tdiv c 10000) ++ '.' :: padLeft4 (natRepr (c.natAbs % 10000))

/-! ## ClientInfo (`src/client_info.rs`) -/

/-- Rust `enum TransactionError { Overdraw, InvalidTxId }`.  The spec names the
first `InsufficientFunds` and the second `UnknownTransaction`. -/
inductive TransactionError
  | Overdraw
  | InvalidTxId
  deriving DecidableEq, Repr

/-- Rust `struct ClientTransaction { tx: TxId, amount: Currency }`. -/
structure ClientTransaction where
  tx : TxId
  amount : Currency
  deriving DecidableEq, Repr

/-- Rust `struct ClientInfo` (src/client_info.rs lines 10-17). -/
structure ClientInfo where
  available_funds : Currency
  held_funds : Currency
  locked : Bool
  transfers : List ClientTransaction
  disputes : List ClientTransaction
  deriving DecidableEq, Repr

/-- Rust `ClientInfo::default()` from the derived `Default`. -/
def ClientInfo.default : ClientInfo := ⟨0, 0, false, [], []⟩

/-- Embedding of `ClientInfo::total_funds`. -/
def ClientInfo.total_funds (s : ClientInfo) : Currency :=
  s.available_funds + s.held_funds

/-- Embedding of `ClientInfo::deposit` (lines 20-23): infallible. -/
def ClientInfo.deposit (s : ClientInfo) (amount : Currency) (tx : TxId) :
    ClientInfo :=
  { s with
    available_funds := s.available_funds + amount
    transfers := s.transfers ++ [⟨tx, amount⟩] }

/-- Embedding of `ClientInfo::withdraw` (lines 25-32): rejects when
`available_funds <= amount`, otherwise debits and records `(tx, -amount)`. -/
def ClientInfo.withdraw (s : ClientInfo) (amount : Currency) (tx : TxId) :
    ClientInfo × Option TransactionError :=
  if s.available_funds ≤ amount then (s, some .Overdraw)
  else
    ({ s with
        available_funds := s.available_funds - amount
        transfers := s.transfers ++ [⟨tx, -amount⟩] },
      none)

/-- Embedding of `ClientInfo::dispute` (lines 34-44): first matching transfer in insertion
order; on match moves the stored amount from available to held and appends a
dispute entry. -/
def ClientInfo.dispute (s : ClientInfo) (tx : TxId) :
    ClientInfo × Option TransactionError :=
  match s.transfers.find? (fun t => t.tx == tx) with
  | some t =>
    ({ s with
        available_funds := s.available_funds - t.amount
        held_funds := s.held_funds + t.amount
        disputes := s.disputes ++ [⟨t.tx, t.amount⟩] },
      none)
  | none => (s, some .InvalidTxId)

/-- Embedding of `ClientInfo::resolve` (lines 46-55): first matching dispute entry in
insertion order; the entry is not removed. -/
def ClientInfo.resolve (s : ClientInfo) (dispute_tx : TxId) :
    ClientInfo × Option TransactionError :=
  match s.disputes.find? (fun d => d.tx == dispute_tx) with
  | some d =>
    ({ s with
        available_funds := s.available_funds + d.amount
        held_funds := s.held_funds - d.amount },
      none)
  | none => (s, some .InvalidTxId)

/-- Embedding of `ClientInfo::chargeback` (lines 57-66): first matching dispute entry in
insertion order; debits held funds and locks the account; the entry is not
removed. -/
def ClientInfo.chargeback (s : ClientInfo) (dispute_tx : TxId) :
    ClientInfo × Option TransactionError :=
  match s.disputes.find? (fun d => d.tx == dispute_tx) with
  | some d =>
    ({ s with
        held_funds := s.held_funds - d.amount
        locked := true },
      none)
  | none => (s, some .InvalidTxId)

/-! ## Single-account operation sequences -/

/-- The five operations on one account, with the arguments the engine passes
to the corresponding `ClientInfo` method. -/
inductive Op
  | deposit (tx : TxId) (amount : Currency)
  | withdraw (tx : TxId) (amount : Currency)
  | dispute (tx : TxId)
  | resolve (tx : TxId)
  | chargeback (tx : TxId)
  deriving DecidableEq, Repr

/-- Whether an operation is a chargeback. -/
def Op.isChargeback : Op → Bool
  | .chargeback _ => true
  | _ => false

/-- One operation applied to an account: the state after the call together
with the returned error, exactly as the engine dispatches to the
`ClientInfo` methods. -/
def stepOp (s : ClientInfo) : Op → ClientInfo × Option TransactionError
  | .deposit tx a => (s.deposit a tx, none)
  | .withdraw tx a => s.withdraw a tx
  | .dispute tx => s.dispute tx
  | .resolve tx => s.resolve tx
  | .chargeback tx => s.chargeback tx

/-- The account state after one operation (the engine keeps processing after
an error, so the state is the first component of `stepOp`). -/
def applyOp (s : ClientInfo) (op : Op) : ClientInfo := (stepOp s op).1

/-- The account state after a sequence of operations. -/
def runOps (s : ClientInfo) (ops : List Op) : ClientInfo :=
  ops.foldl applyOp s

/-- Net sum of the signed amounts stored in a history list. -/
def histSum (l : List ClientTransaction) : Int :=
  (l.map (fun t => t.amount)).sum

/-! ## Helper lemmas -/

/-- Running `List.find?` over `l1 ++ t :: l2` returns `t` when nothing in `l1`
satisfies the predicate and `t` does: the "first match in insertion order"
semantics of the Rust `for` loops. -/
theorem find?_append_first {α : Type} (p : α → Bool) (l1 l2 : List α) (t : α)
    (h1 : ∀ u ∈ l1, p u = false) (ht : p t = true) :
    (l1 ++ t :: l2).find? p = some t := by
  induction l1 with
  | nil => simpa using List.find?_cons_of_pos l2 ht
  | cons a l ih =>
    have ha : ¬p a = true := by simp [h1 a (by simp)]
    simp only [List.cons_append]
    rw [List.find?_cons_of_neg _ ha]
    exact ih (fun u hu => h1 u (by simp [hu]))

/-- Each non-chargeback operation preserves the difference between
`available + held` and the net history sum. -/
theorem step_preserves_balance (s : ClientInfo) (op : Op)
    (h : op.isChargeback = false) :
    (applyOp s op).total_funds - histSum (applyOp s op).transfers =
      s.total_funds - histSum s.transfers := by
  cases op with
  | deposit tx a =>
    simp [applyOp, stepOp, ClientInfo.deposit, ClientInfo.total_funds, histSum]
    ring
  | withdraw tx a =>
    by_cases hle : s.available_funds ≤ a
    · simp [applyOp, stepOp, ClientInfo.withdraw, hle]
    · simp [applyOp, stepOp, ClientInfo.withdraw, hle, ClientInfo.total_funds,
        histSum]
      ring
  | dispute tx =>
    cases hf : s.transfers.find? (fun t => t.tx == tx) with
    | none => simp [applyOp, stepOp, ClientInfo.dispute, hf]
    | some t =>
      simp [applyOp, stepOp, ClientInfo.dispute, hf, ClientInfo.total_funds,
        histSum]
  | resolve tx =>
    cases hf : s.disputes.find? (fun d => d.tx == tx) with
    | none => simp [applyOp, stepOp, ClientInfo.resolve, hf]
    | some d =>
      simp [applyOp, stepOp, ClientInfo.resolve, hf, ClientInfo.total_funds,
        histSum]
  | chargeback tx => simp [Op.isChargeback] at h

/-- The balance difference is preserved along any chargeback-free sequence. -/
theorem runOps_preserves_balance (ops : List Op) :
    ∀ s : ClientInfo, (∀ op ∈ ops, op.isChargeback = false) →
      (runOps s ops).total_funds - histSum (runOps s ops).transfers =
        s.total_funds - histSum s.transfers := by
  induction ops with
  | nil => intro s _; simp [runOps]
  | cons op rest ih =>
    intro s h
    have hstep : runOps s (op :: rest) = runOps (applyOp s op) rest := rfl
    rw [hstep, ih (applyOp s op) (fun o ho => h o (by simp [ho])),
      step_preserves_balance s op (h op (by simp))]

/-! ## Claims -/

/-- C1 (corrected): the claim quantifies over sequences of all five
operations, but a successful chargeback decreases `available + held` while
leaving `history` unchanged, so the equality fails after
`Deposit 1 5; Dispute 1; Chargeback 1`. -/
theorem total_funds_ne_histSum_after_chargeback :
    ¬ ((runOps ClientInfo.default
          [Op.deposit 1 5, Op.dispute 1, Op.chargeback 1]).total_funds =
        histSum (runOps ClientInfo.default
          [Op.deposit 1 5, Op.dispute 1, Op.chargeback 1]).transfers) := by
  decide

/-- C1 (amended): for every sequence of Deposit, Withdraw, Dispute and
Resolve operations (no Chargeback) applied to the empty account,
`available + held` equals the net sum of the signed amounts stored in the
history list.  Every prefix of a chargeback-free sequence is again
chargeback-free, so this holds after every operation of such a sequence. -/
theorem total_funds_eq_histSum_no_chargeback (ops : List Op)
    (h : ∀ op ∈ ops, op.isChargeback = false) :
    (runOps ClientInfo.default ops).total_funds =
      histSum (runOps ClientInfo.default ops).transfers := by
  have hrun := runOps_preserves_balance ops ClientInfo.default h
  rw [show ClientInfo.default.total_funds -
      histSum ClientInfo.default.transfers = 0 from rfl] at hrun
  exact sub_eq_zero.mp hrun

/-- Witness for C1's amended theorem at a concrete chargeback-free sequence. -/
theorem total_funds_eq_histSum_no_chargeback_witness :
    (runOps ClientInfo.default
      [Op.deposit 1 10000, Op.withdraw 2 5000, Op.dispute 1,
        Op.resolve 1]).total_funds =
    histSum (runOps ClientInfo.default
      [Op.deposit 1 10000, Op.withdraw 2 5000, Op.dispute 1,
        Op.resolve 1]).transfers :=
  total_funds_eq_histSum_no_chargeback _ (by decide)

/-- C2 (confirmed): `withdraw` fails with the insufficient-funds error
(`Overdraw` in the code) exactly when `available_funds <= amount`; when
`amount < available_funds` it debits `available_funds`, appends
`(tx, -amount)` to the history, and changes nothing else. -/
theorem withdraw_spec (s : ClientInfo) (amount : Currency) (tx : TxId) :
    ((s.withdraw amount tx).2 = some TransactionError.Overdraw ↔
      s.available_funds ≤ amount) ∧
    (s.available_funds ≤ amount →
      s.withdraw amount tx = (s, some TransactionError.Overdraw)) ∧
    (amount < s.available_funds →
      s.withdraw amount tx =
        ({ s with
            available_funds := s.available_funds - amount
            transfers := s.transfers ++ [⟨tx, -amount⟩] },
          none)) := by
  by_cases h : s.available_funds ≤ amount
  · exact ⟨by simp [ClientInfo.withdraw, h],
      fun _ => by simp [ClientInfo.withdraw, h],
      fun h2 => absurd h (not_le.mpr h2)⟩
  · exact ⟨by simp [ClientInfo.withdraw, h],
      fun h2 => absurd h2 h,
      fun _ => by simp [ClientInfo.withdraw, h]⟩

/-- Witness for C2: withdrawing 0.3000 from 0.5000 available succeeds, and a
withdrawal of exactly the available amount fails. -/
theorem withdraw_spec_witness :
    (ClientInfo.withdraw ⟨5000, 0, false, [⟨1, 5000⟩], []⟩ 3000 2 =
      (⟨2000, 0, false, [⟨1, 5000⟩, ⟨2, -3000⟩], []⟩, none)) ∧
    (ClientInfo.withdraw ⟨5000, 0, false, [⟨1, 5000⟩], []⟩ 5000 3 =
      (⟨5000, 0, false, [⟨1, 5000⟩], []⟩, some TransactionError.Overdraw)) := by
  constructor
  · have h := (withdraw_spec ⟨5000, 0, false, [⟨1, 5000⟩], []⟩ 3000 2).2.2
      (by decide)
    exact h.trans (by decide)
  · have h := (withdraw_spec ⟨5000, 0, false, [⟨1, 5000⟩], []⟩ 5000 3).2.1
      (by decide)
    exact h.trans (by decide)

/-- C3 (confirmed): `dispute` acts on the first history entry (in insertion
order) whose id equals `tx`, moving the stored signed amount `a` from
available to held and appending `(tx, a)` to the open disputes — uniformly in
the sign of `a`, and regardless of whether `tx` is already under dispute
(the entry is appended unconditionally, so duplicates arise). -/
theorem dispute_spec (s : ClientInfo) (tx : TxId) (t : ClientTransaction)
    (l1 l2 : List ClientTransaction)
    (hsplit : s.transfers = l1 ++ t :: l2)
    (hfirst : ∀ u ∈ l1, u.tx ≠ tx)
    (ht : t.tx = tx) :
    s.dispute tx =
      ({ s with
          available_funds := s.available_funds - t.amount
          held_funds := s.held_funds + t.amount
          disputes := s.disputes ++ [⟨t.tx, t.amount⟩] },
        none) := by
  have hfind : s.transfers.find? (fun u => u.tx == tx) = some t := by
    rw [hsplit]
    exact find?_append_first _ l1 l2 t
      (fun u hu => by simp [hfirst u hu]) (by simp [ht])
  simp [ClientInfo.dispute, hfind]

/-- Witness for C3: the second history entry (a withdrawal, negative stored
amount) is disputed while a duplicate of it is already under dispute. -/
theorem dispute_spec_witness :
    ClientInfo.dispute ⟨2000, -3000, false, [⟨1, 5000⟩, ⟨2, -3000⟩],
        [⟨2, -3000⟩]⟩ 2 =
      (⟨5000, -6000, false, [⟨1, 5000⟩, ⟨2, -3000⟩],
        [⟨2, -3000⟩, ⟨2, -3000⟩]⟩, none) := by
  have h := dispute_spec ⟨2000, -3000, false, [⟨1, 5000⟩, ⟨2, -3000⟩],
      [⟨2, -3000⟩]⟩ 2 ⟨2, -3000⟩ [⟨1, 5000⟩] [] rfl (by decide) rfl
  exact h.trans (by decide)

/-- C4 (confirmed): a successful `resolve` acts on the first open-dispute
entry with the given id, credits its amount back to available and debits held,
and leaves the open-disputes list untouched, so a second `resolve` of the same
id succeeds and applies the same credit again. -/
theorem resolve_spec (s : ClientInfo) (tx : TxId) (d : ClientTransaction)
    (l1 l2 : List ClientTransaction)
    (hsplit : s.disputes = l1 ++ d :: l2)
    (hfirst : ∀ u ∈ l1, u.tx ≠ tx)
    (hd : d.tx = tx) :
    s.resolve tx =
      ({ s with
          available_funds := s.available_funds + d.amount
          held_funds := s.held_funds - d.amount },
        none) ∧
    (s.resolve tx).1.resolve tx =
      ({ s with
          available_funds := s.available_funds + d.amount + d.amount
          held_funds := s.held_funds - d.amount - d.amount },
        none) := by
  have hfind : s.disputes.find? (fun u => u.tx == tx) = some d := by
    rw [hsplit]
    exact find?_append_first _ l1 l2 d
      (fun u hu => by simp [hfirst u hu]) (by simp [hd])
  have h1 : s.resolve tx =
      ({ s with
          available_funds := s.available_funds + d.amount
          held_funds := s.held_funds - d.amount },
        none) := by
    simp [ClientInfo.resolve, hfind]
  refine ⟨h1, ?_⟩
  rw [h1]
  simp [ClientInfo.resolve, hfind]

/-- Witness for C4: resolving the same dispute twice credits the amount
twice. -/
theorem resolve_spec_witness :
    ClientInfo.resolve ⟨0, 5000, false, [⟨1, 5000⟩], [⟨1, 5000⟩]⟩ 1 =
      (⟨5000, 0, false, [⟨1, 5000⟩], [⟨1, 5000⟩]⟩, none) ∧
    (ClientInfo.resolve ⟨0, 5000, false, [⟨1, 5000⟩], [⟨1, 5000⟩]⟩ 1).1.resolve
        1 =
      (⟨10000, -5000, false, [⟨1, 5000⟩], [⟨1, 5000⟩]⟩, none) := by
  have h := resolve_spec ⟨0, 5000, false, [⟨1, 5000⟩], [⟨1, 5000⟩]⟩ 1
    ⟨1, 5000⟩ [] [] rfl (by decide) rfl
  exact ⟨h.1.trans (by decide), h.2.trans (by decide)⟩

/-- C5 (confirmed): a successful `chargeback` acts on the first open-dispute
entry with the given id, debits its amount from held and sets `locked`,
leaving `available_funds` untouched; and for every amount `A` and id `txid`,
`Deposit txid A; Dispute txid; Chargeback txid` from the empty account ends
with `held_funds = 0` and `locked = true`. -/
theorem chargeback_spec (s : ClientInfo) (tx : TxId) (d : ClientTransaction)
    (l1 l2 : List ClientTransaction)
    (hsplit : s.disputes = l1 ++ d :: l2)
    (hfirst : ∀ u ∈ l1, u.tx ≠ tx)
    (hd : d.tx = tx) :
    s.chargeback tx =
      ({ s with
          held_funds := s.held_funds - d.amount
          locked := true },
        none) ∧
    ∀ (A : Currency) (txid : TxId),
      (runOps ClientInfo.default
        [Op.deposit txid A, Op.dispute txid, Op.chargeback txid]).held_funds =
          0 ∧
      (runOps ClientInfo.default
        [Op.deposit txid A, Op.dispute txid, Op.chargeback txid]).locked =
          true := by
  have hfind : s.disputes.find? (fun u => u.tx == tx) = some d := by
    rw [hsplit]
    exact find?_append_first _ l1 l2 d
      (fun u hu => by simp [hfirst u hu]) (by simp [hd])
  refine ⟨by simp [ClientInfo.chargeback, hfind], ?_⟩
  intro A txid
  simp [runOps, applyOp, stepOp, ClientInfo.default, ClientInfo.deposit,
    ClientInfo.dispute, ClientInfo.chargeback, List.find?]

/-- Witness for C5 at a concrete dispute list, amount and id. -/
theorem chargeback_spec_witness :
    ClientInfo.chargeback ⟨0, 5000, false, [⟨1, 5000⟩], [⟨1, 5000⟩]⟩ 1 =
      (⟨0, 0, true, [⟨1, 5000⟩], [⟨1, 5000⟩]⟩, none) ∧
    (runOps ClientInfo.default
      [Op.deposit 7 5000, Op.dispute 7, Op.chargeback 7]).held_funds = 0 ∧
    (runOps ClientInfo.default
      [Op.deposit 7 5000, Op.dispute 7, Op.chargeback 7]).locked = true := by
  have h := chargeback_spec ⟨0, 5000, false, [⟨1, 5000⟩], [⟨1, 5000⟩]⟩ 1
    ⟨1, 5000⟩ [] [] rfl (by decide) rfl
  exact ⟨h.1.trans (by decide), h.2 5000 7⟩

/-- C6 (confirmed): whenever an operation returns an error (`Overdraw` on an
insufficient withdrawal, `InvalidTxId` when a dispute, resolve, or chargeback
finds no matching id), the account state — available, held, locked, history
and open disputes — is returned unchanged. -/
theorem error_leaves_state_unchanged (s : ClientInfo) (op : Op)
    (e : TransactionError) (h : (stepOp s op).2 = some e) :
    (stepOp s op).1 = s := by
  cases op with
  | deposit tx a => simp [stepOp] at h
  | withdraw tx a =>
    by_cases hle : s.available_funds ≤ a
    · simp [stepOp, ClientInfo.withdraw, hle]
    · simp [stepOp, ClientInfo.withdraw, hle] at h
  | dispute tx =>
    cases hf : s.transfers.find? (fun t => t.tx == tx) with
    | none => simp [stepOp, ClientInfo.dispute, hf]
    | some t => simp [stepOp, ClientInfo.dispute, hf] at h
  | resolve tx =>
    cases hf : s.disputes.find? (fun d => d.tx == tx) with
    | none => simp [stepOp, ClientInfo.resolve, hf]
    | some d => simp [stepOp, ClientInfo.resolve, hf] at h
  | chargeback tx =>
    cases hf : s.disputes.find? (fun d => d.tx == tx) with
    | none => simp [stepOp, ClientInfo.chargeback, hf]
    | some d => simp [stepOp, ClientInfo.chargeback, hf] at h

/-- Witness for C6: an overdrawn withdrawal and a dispute of an unknown id
both leave the account exactly as it was. -/
theorem error_leaves_state_unchanged_witness :
    (stepOp ⟨5000, 0, false, [⟨1, 5000⟩], []⟩ (Op.withdraw 2 9000)).1 =
      ⟨5000, 0, false, [⟨1, 5000⟩], []⟩ ∧
    (stepOp ⟨5000, 0, false, [⟨1, 5000⟩], []⟩ (Op.dispute 42)).1 =
      ⟨5000, 0, false, [⟨1, 5000⟩], []⟩ :=
  ⟨error_leaves_state_unchanged _ _ TransactionError.Overdraw (by decide),
    error_leaves_state_unchanged _ _ TransactionError.InvalidTxId (by decide)⟩

/-- C7 (code bug): the value -0.0001 (backing integer -1) renders as
"0.0001" — `-1 / 10000` truncates to `0` and the fractional digits use the
absolute value, so the sign is dropped — and parsing that string (or even
"-0.0001" itself, whose integer part "-0" is not negative) yields +0.0001,
so the render/parse round trip is not the identity. -/
theorem currency_roundtrip_fails_neg_small :
    Currency.render (-1) = "0.0001".data ∧
    Currency.fromStr (Currency.render (-1)) = some 1 ∧
    Currency.fromStr "-0.0001".data = some 1 ∧
    Currency.fromStr (Currency.render 0) = some 0 ∧
    Currency.fromStr (Currency.render 15000) = some 15000 ∧
    Currency.fromStr (Currency.render (-15000)) = some (-15000) ∧
    Currency.fromStr (Currency.render 10005) = some 10005 := by
  decide

/-- C8 (code bug): `from_str` right-pads the fractional part to at least four
characters but never bounds its length, so "1.12345" (five fractional digits)
parses successfully to the integer 22345 (the value 2.2345) instead of
failing; likewise "1.2.3" is not integer-plus-fraction yet parses to 12000
(1.2000) because parts after the second `split('.')` element are ignored. -/
theorem fromStr_accepts_invalid_formats :
    Currency.fromStr "1.12345".data = some 22345 ∧
    Currency.fromStr "1.2.3".data = some 12000 := by
  decide

/-- C9 (corrected): the locked flag is not terminal for balances — after
`Deposit 1 5; Dispute 1; Chargeback 1` the account is locked, yet a further
deposit still changes `available_funds`. -/
theorem locked_account_still_mutates :
    (runOps ClientInfo.default
      [Op.deposit 1 5, Op.dispute 1, Op.chargeback 1]).locked = true ∧
    (applyOp (runOps ClientInfo.default
        [Op.deposit 1 5, Op.dispute 1, Op.chargeback 1])
      (Op.deposit 2 3)).available_funds ≠
      (runOps ClientInfo.default
        [Op.deposit 1 5, Op.dispute 1, Op.chargeback 1]).available_funds := by
  decide

/-- C9 (amended): once the locked flag is true it remains true under every
further operation — no operation ever clears it — but the account is not
terminal: the code does not gate on `locked`, so balances can still change. -/
theorem locked_persists (s : ClientInfo) (op : Op) (h : s.locked = true) :
    (applyOp s op).locked = true := by
  cases op with
  | deposit tx a => simpa [applyOp, stepOp, ClientInfo.deposit] using h
  | withdraw tx a =>
    by_cases hle : s.available_funds ≤ a
    · simpa [applyOp, stepOp, ClientInfo.withdraw, hle] using h
    · simpa [applyOp, stepOp, ClientInfo.withdraw, hle] using h
  | dispute tx =>
    cases hf : s.transfers.find? (fun t => t.tx == tx) with
    | none => simpa [applyOp, stepOp, ClientInfo.dispute, hf] using h
    | some t => simpa [applyOp, stepOp, ClientInfo.dispute, hf] using h
  | resolve tx =>
    cases hf : s.disputes.find? (fun d => d.tx == tx) with
    | none => simpa [applyOp, stepOp, ClientInfo.resolve, hf] using h
    | some d => simpa [applyOp, stepOp, ClientInfo.resolve, hf] using h
  | chargeback tx =>
    cases hf : s.disputes.find? (fun d => d.tx == tx) with
    | none => simpa [applyOp, stepOp, ClientInfo.chargeback, hf] using h
    | some d => simp [applyOp, stepOp, ClientInfo.chargeback, hf]

/-- Witness for C9's amended theorem: a locked account stays locked through a
further deposit. -/
theorem locked_persists_witness :
    (applyOp ⟨0, 0, true, [⟨1, 5⟩], [⟨1, 5⟩]⟩ (Op.deposit 2 3)).locked =
      true :=
  locked_persists ⟨0, 0, true, [⟨1, 5⟩], [⟨1, 5⟩]⟩ (Op.deposit 2 3) rfl

/-! ## ClientTable (`src/payment_engine.rs`, `src/transaction.rs`) -/

/-- Rust `enum Transaction` (src/transaction.rs); the client id is a `u16` in the
source, embedded as `Nat`. -/
inductive Transaction
  | Withdraw (client : Nat) (tx : TxId) (amount : Currency)
  | Deposit (client : Nat) (tx : TxId) (amount : Currency)
  | Dispute (client : Nat) (tx : TxId)
  | Resolve (client : Nat) (tx : TxId)
  | Chargeback (client : Nat) (tx : TxId)
  deriving DecidableEq, Repr

/-- The client id carried by a transaction record. -/
def Transaction.client : Transaction → Nat
  | .Withdraw c _ _ => c
  | .Deposit c _ _ => c
  | .Dispute c _ => c
  | .Resolve c _ => c
  | .Chargeback c _ => c

/-- Rust `struct ClientTable { clients: Vec<ClientInfo> }`. -/
structure ClientTable where
  clients : List ClientInfo

/-- Embedding of `ClientTable::new` (src/payment_engine.rs lines 14-19):
`vec![Default::default(); ClientId::MAX.into()]`, i.e. exactly
`u16::MAX = 65535` default slots. -/
def ClientTable.new : ClientTable :=
  ⟨List.replicate 65535 ClientInfo.default⟩

/-- Embedding of `ClientTable::handle_transaction` (src/payment_engine.rs lines 21-31):
indexes `self.clients` by the raw client id and dispatches to the
`ClientInfo` method.  The Rust indexing `self.clients[client as usize]`
panics when the id is out of bounds; in this total embedding the lookup
returns `none` in that case. -/
def ClientTable.handle_transaction (t : ClientTable) (txn : Transaction) :
    Option (ClientTable × Option TransactionError) :=
  match txn with
  | .Withdraw client tx amount =>
    (t.clients[client]?).map fun ci =>
      let r := ci.withdraw amount tx
      (⟨t.clients.set client r.1⟩, r.2)
  | .Deposit client tx amount =>
    (t.clients[client]?).map fun ci =>
      (⟨t.clients.set client (ci.deposit amount tx)⟩, none)
  | .Dispute client tx =>
    (t.clients[client]?).map fun ci =>
      let r := ci.dispute tx
      (⟨t.clients.set client r.1⟩, r.2)
  | .Resolve client tx =>
    (t.clients[client]?).map fun ci =>
      let r := ci.resolve tx
      (⟨t.clients.set client r.1⟩, r.2)
  | .Chargeback client tx =>
    (t.clients[client]?).map fun ci =>
      let r := ci.chargeback tx
      (⟨t.clients.set client r.1⟩, r.2)

/-- C10 (confirmed): the fresh table has exactly 65535 slots, so every
transaction whose client id is 65535 (the maximum valid `u16`) hits an
out-of-bounds index (`none` here, a panic in the Rust code), while every
client id from 0 to 65534 is handled. -/
theorem handle_transaction_client_bounds (txn : Transaction) :
    (txn.client = 65535 → ClientTable.new.handle_transaction txn = none) ∧
    (txn.client < 65535 →
      (ClientTable.new.handle_transaction txn).isSome = true) := by
  have hget : ∀ c : Nat, ClientTable.new.clients[c]? =
      if c < 65535 then some ClientInfo.default else none := by
    intro c
    rw [show ClientTable.new.clients =
      List.replicate 65535 ClientInfo.default from rfl]
    exact List.getElem?_replicate
  constructor
  · intro h
    cases txn <;>
      simp_all only [Transaction.client, ClientTable.handle_transaction,
        hget, lt_self_iff_false, if_false, Option.map_none']
  · intro h
    cases txn <;>
      simp_all only [Transaction.client, ClientTable.handle_transaction,
        hget, if_true, if_pos, Option.map_some', Option.isSome_some]

/-- Witness for C10: a dispute for client 65535 is out of bounds, a deposit
for client 65534 is handled. -/
theorem handle_transaction_client_bounds_witness :
    ClientTable.new.handle_transaction (Transaction.Dispute 65535 7) = none ∧
    (ClientTable.new.handle_transaction
      (Transaction.Deposit 65534 1 5000)).isSome = true :=
  ⟨(handle_transaction_client_bounds (Transaction.Dispute 65535 7)).1 rfl,
    (handle_transaction_client_bounds (Transaction.Deposit 65534 1 5000)).2
      (by decide)⟩
